import Mathlib

/-!
Verification of the paper-trading engine in `src/app.py`.

The script is embedded shallowly:
* Python floats are modelled as exact rationals, except where NaN matters,
  where the type `PVal` (a rational or NaN) is used.  Comparison operators
  on `PVal` return `false` whenever an operand is NaN, and arithmetic
  propagates NaN, matching IEEE float semantics as Python exposes them.
* The pandas DataFrames `st.session_state.portfolio` and
  `st.session_state.trade_log` are modelled as lists of structures
  (`Position`, `LogEntry`); appending a row is list append, `drop(i)` with
  `reset_index` is `List.eraseIdx`.  Wall-clock timestamp columns
  (`Entry Time`, `Time`) are omitted: they never influence control flow.
* The yfinance bulk response consumed by `get_live_prices_bulk` is an
  explicit input (`FetchResponse`): either a total failure (the outer
  `except ... return {}` path), or a dataframe that is flat (single-ticker
  shape, one `Close` series) or nested per-ticker (`group_by='ticker'`).
  A per-ticker column that raises during extraction is `ColData.raises`.
* Python `round(x, 2)` is modelled as exact half-to-even rounding at two
  decimal places (`round2`), and `int(x)` on a positive float as
  truncation toward zero (`truncQ`).
-/

namespace PaperBot

/-- Tickers are opaque strings. -/
abbrev Symbol := String

/-- A Python float that may be NaN (prices extracted from yfinance data can
be NaN; `float(nan)` does not raise). -/
inductive PVal where
  | num (q : ℚ)
  | nan
  deriving DecidableEq, Repr

/-- `a < b` as Python evaluates it on floats: `false` when either side is NaN. -/
def PVal.ltB : PVal → PVal → Bool
  | .num a, .num b => a < b
  | _, _ => false

/-- `a ≤ b` on floats: `false` when either side is NaN. -/
def PVal.leB : PVal → PVal → Bool
  | .num a, .num b => a ≤ b
  | _, _ => false

/-- Float subtraction: NaN-propagating. -/
def PVal.sub : PVal → PVal → PVal
  | .num a, .num b => .num (a - b)
  | _, _ => .nan

/-- Float addition: NaN-propagating. -/
def PVal.add : PVal → PVal → PVal
  | .num a, .num b => .num (a + b)
  | _, _ => .nan

/-- Float multiplication: NaN-propagating. -/
def PVal.mul : PVal → PVal → PVal
  | .num a, .num b => .num (a * b)
  | _, _ => .nan

/-- The numeric content of a `PVal`, `none` for NaN. -/
def PVal.toNum : PVal → Option ℚ
  | .num q => some q
  | .nan => none

/-!  ## MarketDataGateway: `get_live_prices_bulk` (src/app.py lines 30-85) -/

/-- One per-ticker column group of the nested (multi-ticker) response:
either a usable `Close` series (entries may be NaN), or data whose
extraction raises (caught by the per-ticker `except`). -/
inductive ColData where
  | ok (close : List PVal)
  | raises
  deriving DecidableEq, Repr

/-- The shape of the object returned by `yf.download`: a flat frame (its
single `Close` series) as produced for a one-element ticker list, or a
frame with nested per-ticker columns. -/
inductive BulkData where
  | flat (close : List PVal)
  | nested (cols : List (Symbol × ColData))
  deriving DecidableEq, Repr

/-- The outcome of the `yf.download` call inside `get_live_prices_bulk`:
`fail` is the case where the download itself raises, taking the outer
`except Exception: return {}` path. -/
inductive FetchResponse where
  | fail
  | ok (d : BulkData)
  deriving DecidableEq, Repr

/-- The per-ticker body of the multi-ticker loop (lines 60-81): missing
column → 0.0, extraction exception → 0.0, empty series → 0.0, otherwise
the last value of the `Close` series — which is stored via `float(...)`
even when it is NaN. -/
def extractOne (cols : List (Symbol × ColData)) (t : Symbol) : Symbol × PVal :=
  match cols.lookup t with
  | none => (t, .num 0)
  | some .raises => (t, .num 0)
  | some (.ok close) =>
      if close.isEmpty then (t, .num 0)
      else (t, close.getLastD (.num 0))

/-- `get_live_prices_bulk(ticker_list)` (lines 30-85), with the download
outcome passed explicitly.  An empty ticker list returns `{}` before any
download; a download failure returns `{}`; a single ticker reads the flat
`Close` series (empty frame → `{}`, i.e. the ticker is omitted; an
extraction error — e.g. the frame unexpectedly has the nested shape, so
`data['Close']` raises — → 0.0); multiple tickers run the per-ticker loop.
A multi-ticker call on a flat frame finds no ticker among the columns, so
every ticker resolves to 0.0. -/
def get_live_prices_bulk (tickers : List Symbol) (resp : FetchResponse) :
    List (Symbol × PVal) :=
  match tickers, resp with
  | [], _ => []
  | _, .fail => []
  | [t], .ok (.flat close) =>
      if close.isEmpty then []
      else [(t, close.getLastD (.num 0))]
  | [t], .ok (.nested _) => [(t, .num 0)]
  | ts, .ok (.nested cols) => ts.map (extractOne cols)
  | ts, .ok (.flat _) => ts.map (fun t => (t, .num 0))

/-- The upstream requests `get_live_prices_bulk` issues for a ticker list:
nothing for an empty list (early return), otherwise exactly one
`yf.download` call carrying the whole list (line 41).  There is no
batching and no inter-batch delay in this code. -/
def upstreamRequests (tickers : List Symbol) : List (List Symbol) :=
  if tickers.isEmpty then [] else [tickers]

/-!  ## SignalScanner: `run_scanner` (src/app.py lines 98-135) -/

/-- One OHLC bar as the scanner uses it: only the `High` and `Low` columns
are read; either may be NaN in raw yfinance data. -/
structure Bar where
  high : PVal
  low : PVal
  deriving DecidableEq, Repr

/-- A watchlist row as built on lines 125-130: `Trigger`, `Stop Loss`,
`Target` (the `Ticker` column is carried separately). -/
structure WatchRow where
  trigger : PVal
  stopLoss : PVal
  target : PVal
  deriving DecidableEq, Repr

/-- pandas `Series.max()`: NaN entries are skipped (`skipna=True` default),
and the maximum of no non-NaN values (or of an empty series) is NaN. -/
def pmax (xs : List PVal) : PVal :=
  match xs.filterMap PVal.toNum with
  | [] => .nan
  | q :: qs => .num (qs.foldl max q)

/-- pandas `Series.mean()`: NaN entries are skipped; the mean of no
non-NaN values is NaN. -/
def pmean (xs : List PVal) : PVal :=
  match xs.filterMap PVal.toNum with
  | [] => .nan
  | q :: qs => .num ((qs.foldl (· + ·) q) / (qs.length + 1 : ℚ))

/-- The per-symbol body of the scanner loop (lines 113-130).  `none` means
the symbol is skipped, which happens only when the fetched frame is empty
(`if df.empty: continue`).  Otherwise
`prev_high = df['High'].iloc[:-1].max()` (all bars but the last,
NaN-skipped — NaN when only one bar exists),
`atr = (df['High'] - df['Low']).mean()` (over ALL bars, NaN pairs
skipped), `trigger = prev_high * 1.001`, stop `trigger - atr*1.5`, target
`trigger + atr*3`.  `float(...)` on a NaN trigger does not raise, so a row
with NaN levels is appended rather than discarded. -/
def run_scanner_symbol (df : List Bar) : Option WatchRow :=
  if df.isEmpty then none
  else
    let prev_high := pmax (df.dropLast.map Bar.high)
    let atr := pmean (df.map (fun b => b.high.sub b.low))
    let trigger := prev_high.mul (.num (1001 / 1000))
    some { trigger := trigger,
           stopLoss := trigger.sub (atr.mul (.num (3 / 2))),
           target := trigger.add (atr.mul (.num 3)) }

/-- `run_scanner` over the per-symbol histories it fetched: each symbol
whose frame is non-empty contributes one result row (the `except: continue`
around the body catches fetch errors, modelled by simply not listing the
symbol). -/
def run_scanner (fetched : List (Symbol × List Bar)) : List (Symbol × WatchRow) :=
  fetched.filterMap (fun p => (run_scanner_symbol p.2).map (fun r => (p.1, r)))

/-!  ## PaperTradeEngine (src/app.py lines 137-170) -/

/-- One row of `st.session_state.portfolio` (the `Entry Time` timestamp
column is omitted; it never influences control flow). -/
structure Position where
  ticker : Symbol
  buyPrice : ℚ
  qty : ℤ
  stopLoss : ℚ
  target : ℚ
  deriving DecidableEq, Repr

/-- One row of `st.session_state.trade_log` (the `Time` timestamp column
is omitted). -/
structure LogEntry where
  ticker : Symbol
  action : String
  price : ℚ
  pnl : ℚ
  result : String
  deriving DecidableEq, Repr

/-- The mutable session state the engine functions read and write. -/
structure EngineState where
  portfolio : List Position
  trade_log : List LogEntry
  deriving DecidableEq, Repr

/-- `RISK_PER_TRADE = 1000` (line 24). -/
def RISK_PER_TRADE : ℚ := 1000

/-- Python `int(x)`: truncation toward zero. -/
def truncQ (q : ℚ) : ℤ :=
  if q < 0 then ⌈q⌉ else ⌊q⌋

/-- Python `round(x, 2)`: round half to even at two decimal places
(modelled exactly over ℚ). -/
def round2 (q : ℚ) : ℚ :=
  let s := q * 100
  let f : ℤ := ⌊s⌋
  let r : ℤ :=
    if s - f < 1 / 2 then f
    else if (1 : ℚ) / 2 < s - f then f + 1
    else if f % 2 = 0 then f else f + 1
  (r : ℚ) / 100

/-- `execute_paper_trade(ticker, price, stop, target)` (lines 137-157):
a silent early return if a position for the ticker already exists
(the `portfolio.empty` guard is subsumed by `List.any`); otherwise
`risk = price - stop`, `qty = int(RISK_PER_TRADE / risk) if risk > 0
else 1`, floored to 1, then a `Position` row and a BUY `LogEntry`
(PnL 0, result OPEN) are appended.  There is no check on `price`
itself. -/
def execute_paper_trade (ticker : Symbol) (price stop target : ℚ)
    (st : EngineState) : EngineState :=
  if st.portfolio.any (fun p => p.ticker == ticker) then st
  else
    let risk := price - stop
    let qty0 : ℤ := if 0 < risk then truncQ (RISK_PER_TRADE / risk) else 1
    let qty : ℤ := if qty0 < 1 then 1 else qty0
    { portfolio := st.portfolio ++
        [{ ticker := ticker, buyPrice := price, qty := qty,
           stopLoss := stop, target := target }],
      trade_log := st.trade_log ++
        [{ ticker := ticker, action := "BUY", price := price,
           pnl := 0, result := "OPEN" }] }

/-- `close_position(index, price, reason)` (lines 159-170): reads the
position at `index` (`iloc[index]`; callers pass indices from `iterrows`,
always in range — out of range is modelled as a no-op where the source
would raise), appends a SELL `LogEntry` with `PnL = round((price -
buyPrice) * qty, 2)` and the given reason, then drops the row and resets
the index. -/
def close_position (index : ℕ) (price : ℚ) (reason : String)
    (st : EngineState) : EngineState :=
  match st.portfolio[index]? with
  | none => st
  | some trade =>
      let pnl := (price - trade.buyPrice) * (trade.qty : ℚ)
      { portfolio := st.portfolio.eraseIdx index,
        trade_log := st.trade_log ++
          [{ ticker := trade.ticker, action := "SELL", price := price,
             pnl := round2 pnl, result := reason }] }

/-!  ## Polling loops (src/app.py lines 186-283) -/

/-- `live_price_map.get(ticker, 0.0)`: association-list lookup with the
0.0 default. -/
def lookupPrice (m : List (Symbol × PVal)) (t : Symbol) : PVal :=
  (m.lookup t).getD (.num 0)

/-- What the portfolio loop decides for one position on one tick. -/
inductive TickAction where
  | hold
  | exitAt (price : ℚ) (reason : String)
  deriving DecidableEq, Repr

/-- The per-position body of the active-positions loop (lines 208-226):
`curr = live_price_map.get(ticker, 0.0)`, and `if curr == 0.0` the BUY
price is substituted ("Fallback if fetch fails", line 213).  Then, only
when auto-trading is on and `curr > 0`: `curr <= stopLoss` exits STOP
LOSS, else `curr >= target` exits TARGET HIT, else the position is held.
A NaN price is not 0.0, so no fallback occurs, and every later comparison
on it is false, so the position is held. -/
def evaluate_position (auto : Bool) (m : List (Symbol × PVal))
    (pos : Position) : TickAction :=
  let curr0 := lookupPrice m pos.ticker
  match (if curr0 = .num 0 then .num pos.buyPrice else curr0) with
  | .nan => .hold
  | .num c =>
      if auto && decide (0 < c) then
        if c ≤ pos.stopLoss then .exitAt c "STOP LOSS"
        else if pos.target ≤ c then .exitAt c "TARGET HIT"
        else .hold
      else .hold

/-- What the watchlist loop decides for one row on one tick: `enter`
carries the current price passed to `execute_paper_trade`. -/
inductive WatchAction where
  | skip
  | enter (price : PVal)
  | watch
  | crash
  deriving DecidableEq, Repr

/-- The per-row body of the watchlist loop (lines 252-283):
`current_price = live_price_map.get(ticker, 0.0)`; a price of exactly 0.0
is `continue`d past (`skip`).  The distance computation
`((current_price - trigger) / trigger) * 100` raises `ZeroDivisionError`
when the trigger is exactly 0 (`crash`).  Otherwise
`execute_paper_trade` runs exactly when `current_price > trigger` (false
whenever either side is NaN) and auto-trading is on; all remaining rows
merely render (`watch`). -/
def watch_step (auto : Bool) (m : List (Symbol × PVal)) (t : Symbol)
    (row : WatchRow) : WatchAction :=
  let cp := lookupPrice m t
  if cp = .num 0 then .skip
  else if row.trigger = .num 0 then .crash
  else if row.trigger.ltB cp then (if auto then .enter cp else .watch)
  else .watch

/-!  ## Spec-side formulas, for comparison with the scanner -/

/-- Clean (NaN-free) bars given as `(high, low)` pairs, lifted into the
scanner's bar type. -/
def toBars (bars : List (ℚ × ℚ)) : List Bar :=
  bars.map (fun p => { high := .num p.1, low := .num p.2 })

/-- The spec's `prevHigh`: the maximum High over all bars except the most
recent one (0 as junk value for fewer than two bars, where the spec
discards the symbol). -/
def specPrevHigh (bars : List (ℚ × ℚ)) : ℚ :=
  match bars.dropLast.map Prod.fst with
  | [] => 0
  | q :: qs => qs.foldl max q

/-- The spec's `atr`: `mean(High - Low)` over the window. -/
def specAtr (bars : List (ℚ × ℚ)) : ℚ :=
  (bars.map (fun b => b.1 - b.2)).sum / (bars.length : ℚ)

/-- A concrete 51-element symbol list, larger than the spec's default
batch size of 50. -/
def manySymbols : List Symbol :=
  (List.range 51).map (fun n => toString n)

/-!  ## General lemmas -/

/-- The first component of a per-ticker extraction is always the ticker. -/
theorem extractOne_fst (cols : List (Symbol × ColData)) (t : Symbol) :
    (extractOne cols t).1 = t := by
  unfold extractOne
  rcases cols.lookup t with _ | cd
  · rfl
  · cases cd with
    | ok close => by_cases h : close.isEmpty <;> simp [h]
    | raises => rfl

/-- The multi-ticker loop visits the input tickers in order, keyed by
ticker. -/
theorem map_fst_extractOne (cols : List (Symbol × ColData)) (ts : List Symbol) :
    (ts.map (extractOne cols)).map Prod.fst = ts := by
  induction ts with
  | nil => rfl
  | cons t ts ih => simp [extractOne_fst, ih]

/-- Round-tripping rationals through `PVal` keeps exactly the numeric
values. -/
theorem filterMap_toNum_map_num (qs : List ℚ) :
    (qs.map PVal.num).filterMap PVal.toNum = qs := by
  induction qs with
  | nil => rfl
  | cons q qs ih => simp [List.filterMap_cons, PVal.toNum, ih]

/-- Folded addition is summation started at the accumulator. -/
theorem foldl_add_eq_sum (qs : List ℚ) (q : ℚ) :
    qs.foldl (· + ·) q = q + qs.sum := by
  induction qs generalizing q with
  | nil => simp
  | cons x xs ih => simp [List.foldl_cons, ih]; ring

/-!  ## Claims -/

/-- Claim C1, counterexample: `get_live_prices_bulk` called on the
non-empty symbol list `["AAA"]` returns an EMPTY mapping when the download
raises (the `except Exception: return {}` path), i.e. 0 entries instead of
the claimed `|S| = 1`, omitting the symbol instead of emitting
`price=0.0, valid=false` for it. -/
theorem c1_fetch_roundtrip_cex :
    get_live_prices_bulk ["AAA"] FetchResponse.fail = [] ∧
    (["AAA"] : List Symbol).length = 1 := by
  exact ⟨rfl, rfl⟩

/-- Claim C1, amended: when the download itself succeeds and returns the
nested per-ticker shape, the mapping has exactly one entry per input
symbol, in order (unresolvable symbols resolve to the 0.0 sentinel; there
is no separate boolean validity flag in the code — 0.0 doubles as the
invalid marker).  On total download failure, however, the mapping is
empty. -/
theorem c1_fetch_roundtrip_amended (ts : List Symbol)
    (cols : List (Symbol × ColData)) (h : ts ≠ []) :
    (get_live_prices_bulk ts (.ok (.nested cols))).map Prod.fst = ts ∧
    get_live_prices_bulk ts FetchResponse.fail = [] := by
  constructor
  · match ts with
    | [] => exact absurd rfl h
    | [t] => rfl
    | t :: t' :: ts' =>
        show ((t :: t' :: ts').map (extractOne cols)).map Prod.fst = _
        exact map_fst_extractOne cols _
  · match ts with
    | [] => rfl
    | [t] => rfl
    | t :: t' :: ts' => rfl

/-- Claim C1, witness: a concrete two-symbol call where only "B" has
data: both symbols are present in the output. -/
theorem c1_fetch_roundtrip_amended_witness :
    (get_live_prices_bulk ["A", "B"]
        (.ok (.nested [("B", .ok [.num 5])]))).map Prod.fst = ["A", "B"] ∧
    get_live_prices_bulk ["A", "B"] FetchResponse.fail = [] :=
  c1_fetch_roundtrip_amended ["A", "B"] [("B", .ok [.num 5])] (by simp)

/-- Claim C8, counterexample: in a two-symbol batch, a close series whose
last value is NaN is stored as NaN via `float(raw_price)` — not resolved
to the claimed `price=0.0` — while its sibling is extracted normally. -/
theorem c8_batch_failis_cex :
    get_live_prices_bulk ["A", "B"]
        (.ok (.nested [("A", .ok [.nan]), ("B", .ok [.num 5])]))
      = [("A", .nan), ("B", .num 5)] ∧
    PVal.nan ≠ PVal.num 0 := by
  exact ⟨rfl, by simp⟩

/-- Claim C8, amended: in a multi-symbol batch each output entry is
computed from that symbol's own column alone (so one symbol's failure
never aborts the others), and a missing key, an extraction exception, or
an empty close series each resolve to the 0.0 sentinel for that symbol
only; a NaN last value, however, is propagated as NaN rather than 0.0
(and the sentinel carries no separate validity flag). -/
theorem c8_batch_isolation_amended (ts : List Symbol)
    (cols : List (Symbol × ColData)) (t : Symbol) (h2 : 2 ≤ ts.length)
    (hfail : cols.lookup t = none ∨ cols.lookup t = some .raises ∨
      cols.lookup t = some (.ok [])) :
    get_live_prices_bulk ts (.ok (.nested cols)) = ts.map (extractOne cols) ∧
    extractOne cols t = (t, .num 0) := by
  constructor
  · match ts, h2 with
    | t1 :: t2 :: ts', _ => rfl
  · rcases hfail with h | h | h <;> simp [extractOne, h]

/-- Claim C8, witness: a concrete three-symbol batch where "A" is missing
from the response, "B"'s extraction raises, and "C" has an empty series:
each resolves to 0.0 without disturbing the others. -/
theorem c8_batch_isolation_amended_witness :
    get_live_prices_bulk ["A", "B", "C"]
        (.ok (.nested [("B", .raises), ("C", .ok [])]))
      = (["A", "B", "C"].map
          (extractOne [("B", .raises), ("C", .ok [])])) ∧
    extractOne [("B", .raises), ("C", .ok [])] "A" = ("A", .num 0) :=
  c8_batch_isolation_amended ["A", "B", "C"] [("B", .raises), ("C", .ok [])]
    "A" (by simp) (Or.inl rfl)

/-- Claim C9, counterexample: a 51-symbol list — above the claimed
default batch size of 50 — is sent upstream as ONE request carrying all
51 symbols, not partitioned into batches with a delay between them. -/
theorem c9_batching_cex :
    upstreamRequests manySymbols = [manySymbols] ∧
    50 < manySymbols.length := by
  refine ⟨rfl, ?_⟩
  simp [manySymbols]

/-- Claim C9, amended: for every non-empty symbol list, whatever its
size, `get_live_prices_bulk` issues exactly one upstream `yf.download`
request carrying the entire list; there is no batch partitioning and no
inter-batch delay in this code. -/
theorem c9_batching_amended (ts : List Symbol) (h : ts ≠ []) :
    upstreamRequests ts = [ts] := by
  simp [upstreamRequests, h]

/-- Claim C9, witness: the single-request behaviour at the concrete
51-symbol list. -/
theorem c9_batching_amended_witness :
    upstreamRequests manySymbols = [manySymbols] :=
  c9_batching_amended manySymbols (by simp [manySymbols])

/-- A portfolio holding no position for `t` fails the duplicate-ticker
guard. -/
theorem any_ticker_eq_false {P : List Position} {t : Symbol}
    (h : ∀ q ∈ P, q.ticker ≠ t) :
    P.any (fun q => q.ticker == t) = false := by
  rw [List.any_eq_false]
  intro q hq
  simpa using h q hq

/-- Claim C2: entering with entry price `p` and stop `s` (no position yet
open for the ticker) appends exactly one position whose quantity is
`max(1, ⌊RISK_PER_TRADE / (p - s)⌋)` when `p > s`, and the defensive
floor 1 when `p ≤ s` — the call is not rejected. -/
theorem c2_position_sizing (t : Symbol) (p s tg : ℚ) (st : EngineState)
    (h : ∀ q ∈ st.portfolio, q.ticker ≠ t) :
    (execute_paper_trade t p s tg st).portfolio =
      st.portfolio ++
        [({ ticker := t, buyPrice := p, qty := (if s < p then max 1 ⌊RISK_PER_TRADE / (p - s)⌋ else 1), stopLoss := s, target := tg } : Position)] := by
  have hqty : (if (if 0 < p - s then truncQ (RISK_PER_TRADE / (p - s)) else 1) < 1
        then (1 : ℤ)
        else (if 0 < p - s then truncQ (RISK_PER_TRADE / (p - s)) else 1))
      = (if s < p then max 1 ⌊RISK_PER_TRADE / (p - s)⌋ else 1) := by
    by_cases hps : s < p
    · have hrisk : 0 < p - s := sub_pos.mpr hps
      have hq : 0 < RISK_PER_TRADE / (p - s) :=
        div_pos (by norm_num [RISK_PER_TRADE]) hrisk
      rw [if_pos hrisk, if_pos hps]
      unfold truncQ
      rw [if_neg (not_lt.mpr hq.le)]
      rcases le_or_lt 1 ⌊RISK_PER_TRADE / (p - s)⌋ with hle | hlt
      · rw [if_neg (not_lt.mpr hle), max_eq_right hle]
      · rw [if_pos hlt, max_eq_left hlt.le]
    · have hrisk : ¬ (0 < p - s) := fun hc => hps (sub_pos.mp hc)
      rw [if_neg hrisk, if_neg hps]
      norm_num
  simp only [execute_paper_trade, any_ticker_eq_false h, Bool.false_eq_true,
    if_false, hqty]

/-- Claim C2, witness: the spec's two scenarios — price 100, stop 95,
risk budget 1000 gives quantity 200; price 100 = stop 100 gives the
fallback quantity 1. -/
theorem c2_position_sizing_witness :
    (execute_paper_trade "AAA" 100 95 110 ⟨[], []⟩).portfolio
      = [({ ticker := "AAA", buyPrice := 100, qty := 200, stopLoss := 95, target := 110 } : Position)] ∧
    (execute_paper_trade "BBB" 100 100 110 ⟨[], []⟩).portfolio
      = [({ ticker := "BBB", buyPrice := 100, qty := 1, stopLoss := 100, target := 110 } : Position)] := by
  constructor
  · have h := c2_position_sizing "AAA" 100 95 110 ⟨[], []⟩ (by simp)
    rw [h]
    norm_num [RISK_PER_TRADE]
  · have h := c2_position_sizing "BBB" 100 100 110 ⟨[], []⟩ (by simp)
    rw [h]
    norm_num

/-- Claim C5, counterexample: `execute_paper_trade` with price 0 (≤ 0) on
an empty portfolio is NOT a no-op — it creates a position (risk
0 - 5 < 0, so the quantity falls back to 1) and appends a BUY log entry;
the code never checks the price. -/
theorem c5_price_check_cex :
    (execute_paper_trade "AAA" 0 5 10 ⟨[], []⟩).portfolio
      = [({ ticker := "AAA", buyPrice := 0, qty := 1, stopLoss := 5, target := 10 } : Position)] ∧
    (execute_paper_trade "AAA" 0 5 10 ⟨[], []⟩).trade_log
      = [({ ticker := "AAA", action := "BUY", price := 0, pnl := 0, result := "OPEN" } : LogEntry)] := by
  constructor
  · simp [execute_paper_trade]
  · simp [execute_paper_trade]

/-- Claim C5, amended: `execute_paper_trade` is a silent no-op exactly
when a Position already exists for the symbol; the price is never
checked (a price ≤ 0 still opens a position).  Idempotence per symbol
holds: calling it twice in immediate succession leaves exactly one
Position for the symbol and appends exactly one BUY log entry across the
two calls. -/
theorem c5_enter_idempotent_amended (t : Symbol) (p s tg : ℚ)
    (st : EngineState) (h : ∀ q ∈ st.portfolio, q.ticker ≠ t) :
    execute_paper_trade t p s tg (execute_paper_trade t p s tg st)
        = execute_paper_trade t p s tg st ∧
    ((execute_paper_trade t p s tg st).portfolio.filter
        (fun q => q.ticker == t)).length = 1 ∧
    (execute_paper_trade t p s tg st).trade_log
      = st.trade_log ++ [({ ticker := t, action := "BUY", price := p, pnl := 0, result := "OPEN" } : LogEntry)] := by
  have hany := any_ticker_eq_false h
  have hfilter : st.portfolio.filter (fun q => q.ticker == t) = [] := by
    rw [List.filter_eq_nil_iff]
    intro q hq
    simpa using h q hq
  refine ⟨?_, ?_, ?_⟩
  · conv_lhs => rw [execute_paper_trade]
    rw [if_pos]
    unfold execute_paper_trade
    rw [hany]
    simp
  · unfold execute_paper_trade
    rw [hany]
    simp [List.filter_append, hfilter]
  · unfold execute_paper_trade
    rw [hany]
    simp

/-- Claim C5, witness: entering "AAA" twice from an empty state: the
second call changes nothing, one position and one BUY entry exist. -/
theorem c5_enter_idempotent_amended_witness :
    execute_paper_trade "AAA" 100 95 110
        (execute_paper_trade "AAA" 100 95 110 ⟨[], []⟩)
      = execute_paper_trade "AAA" 100 95 110 ⟨[], []⟩ ∧
    ((execute_paper_trade "AAA" 100 95 110 ⟨[], []⟩).portfolio.filter
        (fun q => q.ticker == "AAA")).length = 1 ∧
    (execute_paper_trade "AAA" 100 95 110 ⟨[], []⟩).trade_log
      = [] ++ [({ ticker := "AAA", action := "BUY", price := 100, pnl := 0, result := "OPEN" } : LogEntry)] :=
  c5_enter_idempotent_amended "AAA" 100 95 110 ⟨[], []⟩ (by simp)

/-- Claim C6, counterexample: closing a quantity-1 position entered at
100 at the exit price 100.125 logs `PnL = round(0.125, 2) = 0.12`, not
the exact `(exitPrice - entryPrice) × qty = 0.125` the claim states. -/
theorem c6_pnl_rounding_cex :
    (close_position 0 (100 + 1/8) "MANUAL"
        ⟨[({ ticker := "AAA", buyPrice := 100, qty := 1, stopLoss := 95, target := 110 } : Position)], []⟩).trade_log
      = [({ ticker := "AAA", action := "SELL", price := 100 + 1/8, pnl := 12/100, result := "MANUAL" } : LogEntry)] ∧
    (12 / 100 : ℚ) ≠ ((100 + 1/8) - 100) * 1 := by
  constructor
  · simp [close_position, round2]
    norm_num [Int.fract]
  · norm_num

/-- Claim C6, amended: closing the open position at index `i` at price
`p` appends exactly one SELL log entry whose PnL is
`(p - entryPrice) × qty` ROUNDED to two decimal places (Python
`round(_, 2)`) and whose result tag is the given reason, and removes
exactly that position, leaving every other position unchanged. -/
theorem c6_close_position_amended (st : EngineState) (i : ℕ) (price : ℚ)
    (reason : String) (pos : Position) (h : st.portfolio[i]? = some pos) :
    (close_position i price reason st).trade_log
      = st.trade_log ++ [({ ticker := pos.ticker, action := "SELL", price := price, pnl := round2 ((price - pos.buyPrice) * (pos.qty : ℚ)), result := reason } : LogEntry)] ∧
    (close_position i price reason st).portfolio
      = st.portfolio.take i ++ st.portfolio.drop (i + 1) := by
  unfold close_position
  rw [h]
  exact ⟨rfl, List.eraseIdx_eq_take_drop_succ _ _⟩

/-- Claim C6, witness: closing a concrete quantity-2 position entered at
100 at exit price 106 appends the SELL entry with PnL 12 and result
TARGET HIT, and empties the portfolio. -/
theorem c6_close_position_amended_witness :
    (close_position 0 106 "TARGET HIT"
        ⟨[({ ticker := "AAA", buyPrice := 100, qty := 2, stopLoss := 95, target := 106 } : Position)], []⟩).trade_log
      = [({ ticker := "AAA", action := "SELL", price := 106, pnl := round2 ((106 - 100) * (2 : ℚ)), result := "TARGET HIT" } : LogEntry)] ∧
    (close_position 0 106 "TARGET HIT"
        ⟨[({ ticker := "AAA", buyPrice := 100, qty := 2, stopLoss := 95, target := 106 } : Position)], []⟩).portfolio = [] := by
  have hcc := c6_close_position_amended
    ⟨[({ ticker := "AAA", buyPrice := 100, qty := 2, stopLoss := 95, target := 106 } : Position)], []⟩ 0 106 "TARGET HIT"
    ({ ticker := "AAA", buyPrice := 100, qty := 2, stopLoss := 95, target := 106 } : Position) rfl
  exact ⟨by simpa using hcc.1, by simpa using hcc.2⟩

/-- Claim C3, counterexample: a symbol whose history holds exactly ONE
valid bar (fewer than the claimed minimum of 2) is NOT discarded: the
frame is non-empty, so the scanner appends a watchlist row for it — with
NaN levels, since `prev_high` is the max of an empty slice. -/
theorem c3_two_bar_discard_cex :
    run_scanner [("AAA", [({ high := PVal.num 10, low := PVal.num 9 } : Bar)])]
      = [("AAA", ({ trigger := PVal.nan, stopLoss := PVal.nan, target := PVal.nan } : WatchRow))] ∧
    [({ high := PVal.num 10, low := PVal.num 9 } : Bar)].length < 2 := by
  exact ⟨rfl, by norm_num⟩

/-- Claim C3, amended: a symbol is skipped only when its fetched history
is empty (one bar is enough to be kept, with NaN levels); on a history of
at least two clean (NaN-free) bars the appended levels are exactly
`trigger = prevHigh * 1.001` with `prevHigh` the max High over all bars
but the most recent, `atr` the mean of High - Low over ALL retained bars,
`stop = trigger - 1.5*atr` and `target = trigger + 3*atr`. -/
theorem c3_scanner_levels_amended (df : List Bar) (bars : List (ℚ × ℚ))
    (h2 : 2 ≤ bars.length) :
    (run_scanner_symbol df = none ↔ df = []) ∧
    run_scanner_symbol (toBars bars) =
      some ⟨.num (specPrevHigh bars * (1001 / 1000)),
            .num (specPrevHigh bars * (1001 / 1000) - specAtr bars * (3 / 2)),
            .num (specPrevHigh bars * (1001 / 1000) + specAtr bars * 3)⟩ := by
  constructor
  · cases df with
    | nil => simp [run_scanner_symbol]
    | cons b bs => simp [run_scanner_symbol]
  · have hne : bars ≠ [] := by
      intro hc
      rw [hc] at h2
      simp at h2
    have hnedl : bars.dropLast.map Prod.fst ≠ [] := by
      intro hc
      have hlen := congrArg List.length hc
      simp [List.length_dropLast] at hlen
      omega
    obtain ⟨q, qs, hqqs⟩ : ∃ q qs, bars.dropLast.map Prod.fst = q :: qs := by
      cases hx : bars.dropLast.map Prod.fst with
      | nil => exact absurd hx hnedl
      | cons a l => exact ⟨a, l, rfl⟩
    have hhigh : (toBars bars).dropLast.map Bar.high
        = (bars.dropLast.map Prod.fst).map PVal.num := by
      unfold toBars
      rw [← List.map_dropLast, List.map_map, List.map_map]
      rfl
    have hpmax : pmax ((toBars bars).dropLast.map Bar.high)
        = .num (specPrevHigh bars) := by
      rw [hhigh]
      unfold pmax specPrevHigh
      rw [filterMap_toNum_map_num, hqqs]
    have hsub : (toBars bars).map (fun b => b.high.sub b.low)
        = (bars.map (fun p => p.1 - p.2)).map PVal.num := by
      unfold toBars
      rw [List.map_map, List.map_map]
      rfl
    have hmean : pmean ((toBars bars).map (fun b => b.high.sub b.low))
        = .num (specAtr bars) := by
      rw [hsub]
      unfold pmean specAtr
      rw [filterMap_toNum_map_num]
      cases bars with
      | nil => exact absurd rfl hne
      | cons b bs =>
          simp only [List.map_cons]
          rw [foldl_add_eq_sum]
          simp [List.sum_cons]
    have hnetb : toBars bars ≠ [] := by
      unfold toBars
      simp [hne]
    have hne2 : (toBars bars).isEmpty = false := by
      cases hb : toBars bars with
      | nil => exact absurd hb hnetb
      | cons b l => rfl
    simp only [run_scanner_symbol, hne2, Bool.false_eq_true, if_false]
    rw [hpmax, hmean]
    simp [PVal.mul, PVal.sub, PVal.add]

/-- Claim C3, witness: the spec's scenario — two clean bars with
`prevHigh = 100` and `atr = 2` yield trigger 100.1, stop 97.1, target
106.1 (and the empty history is the one that is skipped). -/
theorem c3_scanner_levels_amended_witness :
    (run_scanner_symbol [] = none ↔ ([] : List Bar) = []) ∧
    run_scanner_symbol (toBars [(100, 98), (96, 94)]) =
      some ⟨.num (specPrevHigh [(100, 98), (96, 94)] * (1001 / 1000)),
            .num (specPrevHigh [(100, 98), (96, 94)] * (1001 / 1000)
              - specAtr [(100, 98), (96, 94)] * (3 / 2)),
            .num (specPrevHigh [(100, 98), (96, 94)] * (1001 / 1000)
              + specAtr [(100, 98), (96, 94)] * 3)⟩ :=
  c3_scanner_levels_amended [] [(100, 98), (96, 94)] (by norm_num)

/-- Claim C4: on a tick where the position is actually evaluated
(auto-trading on, fetched price valid and positive) and the price
satisfies BOTH `price ≤ stopLoss` and `price ≥ target`, the exit reason
is STOP LOSS, never TARGET HIT: the stop check runs first. -/
theorem c4_stop_priority_over_target (m : List (Symbol × PVal))
    (pos : Position) (c : ℚ) (hl : lookupPrice m pos.ticker = .num c)
    (hc : 0 < c) (hstop : c ≤ pos.stopLoss) (_htgt : pos.target ≤ c) :
    evaluate_position true m pos = .exitAt c "STOP LOSS" := by
  have hc0 : (PVal.num c : PVal) ≠ .num 0 := by
    simp only [ne_eq, PVal.num.injEq]
    exact hc.ne'
  simp only [evaluate_position, hl, if_neg hc0]
  simp [hc, hstop]

/-- Claim C4, witness: a pathological inverted setup — stop 95, target
90, price 92 satisfies both exit conditions at once and resolves to STOP
LOSS. -/
theorem c4_stop_priority_over_target_witness :
    evaluate_position true [("A", PVal.num 92)]
        ({ ticker := "A", buyPrice := 100, qty := 1, stopLoss := 95, target := 90 } : Position)
      = .exitAt 92 "STOP LOSS" :=
  c4_stop_priority_over_target [("A", PVal.num 92)]
    ({ ticker := "A", buyPrice := 100, qty := 1, stopLoss := 95, target := 90 } : Position)
    92 rfl (by norm_num) (by norm_num) (by norm_num)

/-- Claim C7, counterexample: a position whose symbol is MISSING from the
price map (total fetch failure this tick) is not skipped.  The loop
substitutes the entry price ("Fallback if fetch fails") and evaluates:
for a degenerate position with entry 100 and stop 100 it exits STOP LOSS
at the fabricated price 100 — an exit on a bad price. -/
theorem c7_skip_on_bad_price_cex :
    evaluate_position true []
        ({ ticker := "A", buyPrice := 100, qty := 1, stopLoss := 100, target := 110 } : Position)
      = .exitAt 100 "STOP LOSS" ∧
    TickAction.exitAt (100 : ℚ) "STOP LOSS" ≠ TickAction.hold := by
  constructor
  · simp [evaluate_position, lookupPrice]
  · simp

/-- Claim C7, amended: when the fetched price for an open position is the
0.0 failure sentinel (or the symbol is missing), evaluation is NOT
skipped: the entry price is substituted for the current price and the
stop/target checks run against it — in particular a position whose entry
price is positive and not above its stop exits STOP LOSS at its own
entry price on such a tick. -/
theorem c7_entry_price_fallback_amended (m : List (Symbol × PVal))
    (pos : Position) (hl : lookupPrice m pos.ticker = .num 0)
    (hpos : 0 < pos.buyPrice) (hstop : pos.buyPrice ≤ pos.stopLoss) :
    evaluate_position true m pos = .exitAt pos.buyPrice "STOP LOSS" := by
  simp only [evaluate_position, hl, if_pos rfl]
  simp [hpos, hstop]

/-- Claim C7, witness: the concrete bad-price exit — empty price map,
entry 100, stop 100. -/
theorem c7_entry_price_fallback_amended_witness :
    evaluate_position true []
        ({ ticker := "B", buyPrice := 100, qty := 1, stopLoss := 100, target := 110 } : Position)
      = .exitAt 100 "STOP LOSS" :=
  c7_entry_price_fallback_amended []
    ({ ticker := "B", buyPrice := 100, qty := 1, stopLoss := 100, target := 110 } : Position)
    rfl (by norm_num) (by norm_num)

/-- Claim C10: in the watchlist loop, a fetched price of exactly 0.0
(also the default for a missing symbol) skips the row outright, and
`execute_paper_trade` is reached only when auto-trading is on and the
fetched price is a real number, nonzero, and strictly above the row's
trigger — so no position is ever opened through the polling loop at a
zero or missing price. -/
theorem c10_no_entry_on_bad_price (auto : Bool) (m : List (Symbol × PVal))
    (t : Symbol) (row : WatchRow) :
    (lookupPrice m t = .num 0 → watch_step auto m t row = .skip) ∧
    (∀ v : PVal, watch_step auto m t row = .enter v →
      auto = true ∧ lookupPrice m t = v ∧
      ∃ c : ℚ, v = .num c ∧ c ≠ 0 ∧ row.trigger.ltB (.num c) = true) := by
  constructor
  · intro hl
    simp [watch_step, hl]
  · intro v henter
    simp only [watch_step] at henter
    split_ifs at henter with h0 htr hlt hauto
    all_goals simp only [WatchAction.enter.injEq, reduceCtorEq] at henter
    subst henter
    refine ⟨hauto, rfl, ?_⟩
    cases hq : lookupPrice m t with
    | nan =>
        rw [hq] at hlt
        cases row.trigger <;> simp [PVal.ltB] at hlt
    | num q =>
        refine ⟨q, rfl, fun hq0 => h0 (hq0 ▸ hq), ?_⟩
        rw [hq] at hlt
        exact hlt

end PaperBot
